import Mathlib

/-
  A shallow embedding of the TrainHuntBackend session coordinator
  (src/main.py): the entity store (class DB), the message handlers
  (class MessageHandler) and the dispatcher (handle_message).

  Modelling conventions:
  - Python dicts are insertion-ordered association lists (lookup on first
    matching key, assignment updates in place or appends);
  - Python sets are lists without duplicates, set.add appends, set.remove
    is List.erase guarded by membership (KeyError otherwise);
  - UUIDs are opaque Nat identifiers;
  - Python exceptions escaping a handler are an explicit PyExn value in the
    handler result (partial store writes and already-delivered notifications
    made before the raise are kept, as in the mutable source);
  - random.sample is determinized to the first count pool questions (no
    claim depends on the draw);
  - deepcopy-on-read needs no modelling: Lean values are immutable, so a
    fetched snapshot never aliases the store and only an explicit
    add-or-update call changes stored state, exactly the contract of DB.
-/

namespace TrainHunt

/-- Abstract model of a UUID: an opaque identifier. -/
abbrev UUID := Nat

/-- Python exceptions the modelled code can raise. -/
inductive PyExn where
  | valueError
  | typeError
  | keyError
  | attributeError
  deriving DecidableEq, Repr

/-- Python dict lookup on an insertion-ordered association list. -/
def dictGet {K V : Type} [DecidableEq K] : List (K × V) → K → Option V
  | [], _ => none
  | (k, v) :: rest, key => if k = key then some v else dictGet rest key

/-- Python dict assignment: update in place if the key is present, else append. -/
def dictSet {K V : Type} [DecidableEq K] : List (K × V) → K → V → List (K × V)
  | [], key, v => [(key, v)]
  | (k, v0) :: rest, key, v =>
    if k = key then (key, v) :: rest else (k, v0) :: dictSet rest key v

/-- Python `del d[k]` (handlers only call it on keys they just looked up). -/
def dictDel {K V : Type} [DecidableEq K] : List (K × V) → K → List (K × V)
  | [], _ => []
  | (k, v) :: rest, key => if k = key then rest else (k, v) :: dictDel rest key

/-- Python `set.add`. -/
def setAdd (l : List UUID) (u : UUID) : List UUID := if u ∈ l then l else l ++ [u]

/-- Enum GameType: only one member exists. -/
inductive GameType where
  | collectingStamps
  deriving DecidableEq, Repr

/-- Question dataclass; `compare=False` on the answer fields means identity
is the text only, which the questions-dict operations below respect. -/
structure Question where
  text : String
  correct_answer : Option String := none
  wrong_answers : Option (List String) := none
  deriving DecidableEq, Repr

/-- Lookup in the questions dict: keys compare by text only. -/
def qdictGet : List (Question × Bool) → String → Option Bool
  | [], _ => none
  | (q, b) :: rest, t => if q.text = t then some b else qdictGet rest t

/-- Assignment into the questions dict: an existing key (same text) keeps its
position and key object; a new key `Question(text)` is appended. -/
def qdictSet : List (Question × Bool) → String → Bool → List (Question × Bool)
  | [], t, b => [(⟨t, none, none⟩, b)]
  | (q, b0) :: rest, t, b =>
    if q.text = t then (q, b) :: rest else (q, b0) :: qdictSet rest t b

/-- The runtime value held in `CollectingStampsState.questions`: the dataclass
annotates the field as a dict from Question to bool, but
`handle_collecting_stamps_start` constructs the state with the plain question
list returned by `get_random_questions`, so both shapes occur at runtime. -/
inductive QuestionsVal where
  | pyList (qs : List Question)
  | pyDict (d : List (Question × Bool))
  deriving DecidableEq, Repr

structure CollectingStampsState where
  questions : QuestionsVal
  current_progress : Nat := 0
  deriving DecidableEq, Repr

/-- `CollectingStampsState.update_progress`. `self.questions.get(...)` is a
dict method, so on a `pyList` value it raises AttributeError. The guard
`if not self.questions.get(q)` fires when the question is absent (None) or
recorded with a False answer; in that case the answer is (re)recorded and the
counter incremented, and the current counter is returned either way. -/
def CollectingStampsState.update_progress (st : CollectingStampsState)
    (question_text : String) (answered_correctly : Bool) :
    Except PyExn (CollectingStampsState × Nat) :=
  match st.questions with
  | .pyList _ => .error .attributeError
  | .pyDict d =>
    if (qdictGet d question_text).getD false then
      .ok (st, st.current_progress)
    else
      .ok ({ questions := .pyDict (qdictSet d question_text answered_correctly),
             current_progress := st.current_progress + 1 },
           st.current_progress + 1)

structure User where
  id : UUID
  name : Option String := none
  image : Option String := none
  group_id : Option UUID := none
  is_ready : Bool := false
  deriving DecidableEq, Repr

structure Group where
  id : UUID
  admin_id : UUID
  name : String
  members : List UUID := []
  is_ready : Bool := false
  deriving DecidableEq, Repr

structure Team where
  id : Int
  group_id : UUID
  members : List UUID
  deriving DecidableEq, Repr

/-- MessageType: every enum member, plus `unknown` for a raw type string
outside the enum, on which the `MessageType` constructor raises ValueError
inside `handle_message`. -/
inductive MsgTag where
  | get_user_info
  | set_user_info
  | set_user_ready
  | delete_group
  | join_group
  | leave_group
  | get_group_info
  | set_group_info
  | set_group_ready
  | set_teams
  | get_teams
  | collecting_stamps_start
  | collecting_stamps_questions
  | collecting_stamps_progress
  | error
  | success
  | connect
  | disconnect
  | reconnect
  | unknown (s : String)
  deriving DecidableEq, Repr

/-- A nonempty string payload standing for a UUID: either parseable or a
string on which `UUID(...)` raises ValueError. -/
inductive RawId where
  | invalid
  | val (u : UUID)
  deriving DecidableEq, Repr

/-- The raw teamId field of a submitted team: `missing` covers an absent or
falsy raw value, `invalid` a value on which `int(...)` raises ValueError. -/
inductive IdField where
  | missing
  | invalid
  | val (n : Int)
  deriving DecidableEq, Repr

structure RawTeam where
  teamId : IdField
  teamMembers : Option (List RawId)
  deriving DecidableEq, Repr

structure RawUserInfo where
  userName : Option String
  userImage : Option String
  deriving DecidableEq, Repr

/-- The raw groupId of a group-creation payload: absent key, JSON null,
unparseable string, or a valid UUID. -/
inductive GIdField where
  | missing
  | null
  | invalid
  | val (u : UUID)
  deriving DecidableEq, Repr

structure RawGroupInfo where
  groupId : GIdField
  groupName : Option String
  deriving DecidableEq, Repr

structure RawProgress where
  answered_correctly : Option Bool
  questionText : Option String
  deriving DecidableEq, Repr

/-- Message payloads: request shapes on the left, response and notification
shapes on the right of the protocol. -/
inductive MsgData where
  | vNone
  | vBool (b : Bool)
  | vStr (r : RawId)
  | vText (s : String)
  | vInt (n : Nat)
  | vUser (u : User)
  | vGroup (g : Group)
  | vTeams (ts : List Team)
  | vQuestions (q : QuestionsVal)
  | vUserId (u : UUID)
  | vReadyResp (u : UUID) (teamReady : Bool)
  | vReadyNotif (u : UUID) (isReady : Bool) (teamReady : Bool)
  | vUserInfo (d : RawUserInfo)
  | vGroupInfo (d : RawGroupInfo)
  | vRawTeams (ts : List RawTeam)
  | vProgressReq (d : RawProgress)
  deriving DecidableEq, Repr

structure Message where
  type : MsgTag
  data : MsgData
  request_id : UUID
  deriving DecidableEq, Repr

/-- Python truthiness of a payload (`if not message.data`). -/
def dataFalsy : MsgData → Bool
  | .vNone => true
  | .vBool b => !b
  | .vInt n => n == 0
  | .vText s => s == ""
  | .vTeams ts => ts.isEmpty
  | .vRawTeams ts => ts.isEmpty
  | .vQuestions (.pyList qs) => qs.isEmpty
  | .vQuestions (.pyDict d) => d.isEmpty
  | _ => false

def mkErr (s : String) (rid : UUID) : Message := ⟨.error, .vText s, rid⟩

/-- Fresh `uuid4()` request ids on server-initiated notifications are modelled
by the placeholder 0; no claim depends on them. -/
def freshId : UUID := 0

abbrev GameStates := List (GameType × CollectingStampsState)

/-- The entity store (class DB). -/
structure DB where
  users : List (UUID × User) := []
  groups : List (UUID × Group) := []
  teams : List ((UUID × Int) × Team) := []
  questions : List Question := []
  game_states : List (UUID × GameStates) := []
  deriving DecidableEq, Repr

def DB.add_or_update_user (db : DB) (u : User) : DB :=
  { db with users := dictSet db.users u.id u }

def DB.get_user (db : DB) (uid : UUID) : Option User := dictGet db.users uid

def DB.add_or_update_group (db : DB) (g : Group) : DB :=
  { db with groups := dictSet db.groups g.id g }

def DB.get_group (db : DB) (gid : UUID) : Option Group := dictGet db.groups gid

/-- `DB.delete_group` removes only the group record; the source carries a
TODO to also delete the teams of this group, which it never does. -/
def DB.delete_group (db : DB) (gid : UUID) : DB :=
  { db with groups := dictDel db.groups gid }

def DB.add_or_update_team (db : DB) (t : Team) : DB :=
  { db with teams := dictSet db.teams (t.group_id, t.id) t }

def DB.get_team (db : DB) (gid : UUID) (tid : Int) : Option Team :=
  dictGet db.teams (gid, tid)

/-- `DB.get_group_teams`: ValueError when the group is missing, else every
stored team whose group_id names the group, in store order. -/
def DB.get_group_teams (db : DB) (gid : UUID) : Except PyExn (List Team) :=
  if (dictGet db.groups gid).isSome then
    .ok ((db.teams.map Prod.snd).filter (fun t => t.group_id = gid))
  else .error .valueError

/-- `DB.delete_team` exists in the source but no handler ever calls it. -/
def DB.delete_team (db : DB) (gid : UUID) (tid : Int) : DB :=
  { db with teams := dictDel db.teams (gid, tid) }

/-- `DB.get_team_members`: None when the team is missing or when some team
member has no user record. -/
def DB.get_team_members (db : DB) (gid : UUID) (tid : Int) : Option (List User) :=
  match dictGet db.teams (gid, tid) with
  | none => none
  | some team =>
    let members := (db.users.map Prod.snd).filter (fun u => u.id ∈ team.members)
    if members.length ≠ team.members.length then none else some members

/-- `DB.get_random_questions`, determinized: the first count pool questions. -/
def DB.get_random_questions (db : DB) (count : Nat) : List Question :=
  db.questions.take count

def DB.add_or_update_game_states (db : DB) (uid : UUID) (gs : GameStates) : DB :=
  { db with game_states := dictSet db.game_states uid gs }

def DB.get_game_states (db : DB) (uid : UUID) : Option GameStates :=
  dictGet db.game_states uid

/-- A personal message queued for delivery by the websocket manager. -/
abbrev Sent := UUID × Message

/-- A handler outcome: the store afterwards, the notifications sent before
returning or raising, and either the response or an escaped exception. -/
abbrev HResult := DB × List Sent × Except PyExn Message

def okErr (db : DB) (s : String) (rid : UUID) : HResult := (db, [], .ok (mkErr s rid))

/-- `handle_get_user_info`: falsy payloads are missing, unparseable strings
invalid; non-string payloads make the UUID constructor raise TypeError, which
the blanket except turns into an Error carrying str(e). -/
def handle_get_user_info (db : DB) (_uid : UUID) (msg : Message) : HResult :=
  if dataFalsy msg.data then okErr db "userId is missing" msg.request_id
  else
    match msg.data with
    | .vStr .invalid => okErr db "userId is an invalid UUID" msg.request_id
    | .vStr (.val ruid) =>
      match db.get_user ruid with
      | some u => (db, [], .ok ⟨.success, .vUser u, msg.request_id⟩)
      | none => okErr db "user not found" msg.request_id
    | _ => okErr db "one of the hex, bytes, bytes_le, fields, or int arguments must be given" msg.request_id

/-- `handle_set_user_info`: rebuilds the user record from the payload (name
and image keys required), forcing the id to the sender, keeping an existing
user record its group id, and leaving is_ready at the dataclass default
False. When the pre-existing user was in a group that exists, the rest of
the group is notified with the rebuilt record. -/
def handle_set_user_info (db : DB) (uid : UUID) (msg : Message) : HResult :=
  match msg.data with
  | .vUserInfo d =>
    match d.userName, d.userImage with
    | some nm, some img =>
      let old := db.get_user uid
      let gid : Option UUID :=
        match old with
        | some ou => ou.group_id
        | none => none
      let new_user : User := ⟨uid, some nm, some img, gid, false⟩
      let db1 := db.add_or_update_user new_user
      let sends :=
        match old with
        | some ou =>
          match ou.group_id.bind db.get_group with
          | some g => (g.members.filter (fun m => m ≠ uid)).map
              (fun m => (m, (⟨.set_user_info, .vUser new_user, freshId⟩ : Message)))
          | none => []
        | none => []
      (db1, sends, .ok ⟨.success, .vUserId uid, msg.request_id⟩)
    | _, _ => okErr db "failed to create or update user" msg.request_id
  | _ => okErr db "failed to create or update user" msg.request_id

def handle_get_group_info (db : DB) (_uid : UUID) (msg : Message) : HResult :=
  if dataFalsy msg.data then okErr db "groupId is missing" msg.request_id
  else
    match msg.data with
    | .vStr .invalid => okErr db "userId is an invalid UUID" msg.request_id
    | .vStr (.val gid) =>
      match db.get_group gid with
      | some g => (db, [], .ok ⟨.success, .vGroup g, msg.request_id⟩)
      | none => okErr db "group is not found" msg.request_id
    | _ => okErr db "handle_get_group_info: unknown error" msg.request_id

/-- `handle_set_group_info`: group-name update when the sender is the admin
of its group, group creation (sender becomes admin and sole member) when the
sender is groupless; the KeyError, TypeError and ValueError arms of the
source map to the missing, null and invalid field shapes. -/
def handle_set_group_info (db : DB) (uid : UUID) (msg : Message) : HResult :=
  match db.get_user uid with
  | none => okErr db "handle_set_group_info: unknown error" msg.request_id
  | some user =>
    match user.group_id with
    | some gid =>
      match db.get_group gid with
      | none => okErr db "handle_set_group_info: unknown error" msg.request_id
      | some group =>
        if group.admin_id ≠ uid then
          okErr db "user is already a group member, leave a group to create one" msg.request_id
        else
          match msg.data with
          | .vGroupInfo d =>
            match d.groupName with
            | none => okErr db "some field is missing" msg.request_id
            | some nm =>
              let g2 := { group with name := nm }
              let db1 := db.add_or_update_group g2
              let sends := (g2.members.filter (fun m => m ≠ uid)).map
                (fun m => (m, (⟨.set_group_info, .vGroup g2, freshId⟩ : Message)))
              (db1, sends, .ok ⟨.success, .vNone, msg.request_id⟩)
          | _ => okErr db "id is null" msg.request_id
    | none =>
      match msg.data with
      | .vGroupInfo d =>
        match d.groupId with
        | .missing => okErr db "some field is missing" msg.request_id
        | .null => okErr db "id is null" msg.request_id
        | .invalid => okErr db "invalid id" msg.request_id
        | .val gid2 =>
          match d.groupName with
          | none => okErr db "some field is missing" msg.request_id
          | some nm =>
            let group : Group := ⟨gid2, uid, nm, setAdd [] uid, false⟩
            let db1 := db.add_or_update_group group
            let db2 := db1.add_or_update_user { user with group_id := some gid2 }
            (db2, [], .ok ⟨.success, .vNone, msg.request_id⟩)
      | _ => okErr db "id is null" msg.request_id

def handle_join_group (db : DB) (uid : UUID) (msg : Message) : HResult :=
  if dataFalsy msg.data then okErr db "groupId is missing" msg.request_id
  else
    match msg.data with
    | .vStr .invalid => okErr db "invalid UUID" msg.request_id
    | .vStr (.val gid) =>
      match db.get_group gid with
      | none => okErr db "no group with groupId is found" msg.request_id
      | some target_group =>
        match db.get_user uid with
        | none => okErr db "internal error" msg.request_id
        | some user =>
          if user.group_id.isSome then okErr db "already a group member" msg.request_id
          else if target_group.is_ready then okErr db "target group is ready" msg.request_id
          else
            let g2 := { target_group with members := setAdd target_group.members uid }
            let db1 := db.add_or_update_group g2
            let user2 := { user with group_id := some gid }
            let db2 := db1.add_or_update_user user2
            let sends := (g2.members.filter (fun m => m ≠ uid)).map
              (fun m => (m, (⟨.join_group, .vUser user2, freshId⟩ : Message)))
            (db2, sends, .ok ⟨.success, .vNone, msg.request_id⟩)
    | _ => okErr db "internal error" msg.request_id

/-- The common tail of `handle_leave_group` once the id to remove and its
user record are resolved (self-removal or an explicit target). -/
def leaveGroupCore (db : DB) (uid : UUID) (msg : Message) (gid : UUID)
    (id_to_remove : UUID) (target : Option User) : HResult :=
  match target with
  | none => okErr db "user is not found" msg.request_id
  | some user_to_remove =>
    if user_to_remove.group_id ≠ some gid then
      okErr db "user is not a member of your group" msg.request_id
    else
      match db.get_group gid with
      | none => okErr db "no group with groupId is found" msg.request_id
      | some group =>
        if id_to_remove != uid && group.admin_id != uid then
          okErr db "operation not permitted" msg.request_id
        else if id_to_remove == group.admin_id then
          okErr db "admin cannot leave the group" msg.request_id
        else if id_to_remove ∉ group.members then
          okErr db "is not a member of group" msg.request_id
        else
          let g2 := { group with members := group.members.erase id_to_remove }
          let db1 := db.add_or_update_group g2
          let db2 := db1.add_or_update_user { user_to_remove with group_id := none }
          let excluded := if id_to_remove == uid then id_to_remove else uid
          let sends := (g2.members.filter (fun m => m ≠ excluded)).map
            (fun m => (m, (⟨.leave_group, .vUserId id_to_remove, freshId⟩ : Message)))
          (db2, sends, .ok ⟨.success, .vNone, msg.request_id⟩)

def handle_leave_group (db : DB) (uid : UUID) (msg : Message) : HResult :=
  match db.get_user uid with
  | none => okErr db "internal error" msg.request_id
  | some user =>
    match user.group_id with
    | none => okErr db "user is not a group member" msg.request_id
    | some gid =>
      if dataFalsy msg.data then
        leaveGroupCore db uid msg gid uid (some user)
      else
        match msg.data with
        | .vStr .invalid => okErr db "is not a valid UUID" msg.request_id
        | .vStr (.val t) => leaveGroupCore db uid msg gid t (db.get_user t)
        | _ => okErr db "internal error" msg.request_id

/-- The member notification and eviction loop of `handle_delete_group`
(iterating the snapshot members after the admin has been removed from it). -/
def deleteGroupLoop (db : DB) (sends : List Sent) : List UUID → DB × List Sent
  | [] => (db, sends)
  | m :: rest =>
    let sends1 := sends ++ [(m, (⟨.delete_group, .vNone, freshId⟩ : Message))]
    let db1 :=
      match db.get_user m with
      | some mu => db.add_or_update_user { mu with group_id := none }
      | none => db
    deleteGroupLoop db1 sends1 rest

def handle_delete_group (db : DB) (uid : UUID) (msg : Message) : HResult :=
  match db.get_user uid with
  | none => okErr db "internal error" msg.request_id
  | some user =>
    match user.group_id.bind db.get_group with
    | none => okErr db "group is not found" msg.request_id
    | some group =>
      if group.admin_id ≠ uid then okErr db "only admin can delete a group" msg.request_id
      else if uid ∉ group.members then (db, [], .error .keyError)
      else
        let run := deleteGroupLoop db [] (group.members.erase uid)
        let db2 := run.1.add_or_update_user { user with group_id := none }
        let db3 := db2.delete_group group.id
        (db3, run.2, .ok ⟨.success, .vNone, msg.request_id⟩)

def handle_get_teams (db : DB) (uid : UUID) (msg : Message) : HResult :=
  match db.get_user uid with
  | none => okErr db "internal error" msg.request_id
  | some user =>
    match user.group_id with
    | none => okErr db "user is not a group member" msg.request_id
    | some gid =>
      match db.get_group_teams gid with
      | .error _ => okErr db "internal error" msg.request_id
      | .ok teams => (db, [], .ok ⟨.success, .vTeams teams, msg.request_id⟩)

/-- All-or-nothing UUID parse of a raw member list (map over UUID raising
ValueError on the first invalid member). -/
def parseIds : List RawId → Option (List UUID)
  | [] => some []
  | .invalid :: _ => none
  | .val u :: rest => (parseIds rest).map (fun us => u :: us)

/-- Moving each submitted member from the unassigned pool to the assigned
pool; None models the KeyError raised when a member is not in the unassigned
pool (already claimed by an earlier team, or not a group member). -/
def assignMembers : List UUID → List UUID → List UUID → Option (List UUID × List UUID)
  | [], un, asg => some (un, asg)
  | m :: rest, un, asg =>
    if m ∈ un then assignMembers rest (un.erase m) (setAdd asg m) else none

/-- The validation loop of `handle_set_teams` over the submitted raw teams:
the parsed teams so far, the remaining unassigned pool and the assigned pool,
or the error response aborting the request. -/
def setTeamsLoop (gid : UUID) (rid : UUID) :
    List RawTeam → List UUID → List UUID → List Team →
    Except Message (List Team × List UUID × List UUID)
  | [], un, asg, acc => .ok (acc, un, asg)
  | rt :: rest, un, asg, acc =>
    match rt.teamId with
    | .missing => .error (mkErr "teamId is missing" rid)
    | .invalid => .error (mkErr "teamId is invalid" rid)
    | .val tid =>
      match rt.teamMembers with
      | none => .error (mkErr "teamMembers list is missing or empty" rid)
      | some raws =>
        if raws.isEmpty then .error (mkErr "teamMembers list is missing or empty" rid)
        else
          match parseIds raws with
          | none => .error (mkErr "member id is invalid" rid)
          | some mems =>
            match assignMembers mems un asg with
            | none => .error (mkErr "member is already in another team or does not exist" rid)
            | some (un2, asg2) => setTeamsLoop gid rid rest un2 asg2 (acc ++ [⟨tid, gid, mems⟩])

/-- `handle_set_teams`: admin-only while the group is not ready; validation
of the whole submitted list happens before any store write, and the teams are
persisted one by one only after it fully succeeds. -/
def handle_set_teams (db : DB) (uid : UUID) (msg : Message) : HResult :=
  match db.get_user uid with
  | none => okErr db "internal error" msg.request_id
  | some user =>
    match user.group_id with
    | none => okErr db "user is not a group member" msg.request_id
    | some gid =>
      match db.get_group gid with
      | none => okErr db "group with groupId is not found" msg.request_id
      | some group =>
        if group.is_ready then okErr db "group is ready" msg.request_id
        else if group.admin_id ≠ uid then okErr db "only admin can set teams" msg.request_id
        else
          match msg.data with
          | .vRawTeams raws =>
            match setTeamsLoop gid msg.request_id raws group.members [] [] with
            | .error e => (db, [], .ok e)
            | .ok (teams, un, asg) =>
              if un.length > 0 then okErr db "some group members do not have a team" msg.request_id
              else
                let db1 := teams.foldl DB.add_or_update_team db
                let sends := (asg.filter (fun m => m ≠ uid)).map
                  (fun m => (m, (⟨.set_teams, .vTeams teams, freshId⟩ : Message)))
                (db1, sends, .ok ⟨.success, .vNone, msg.request_id⟩)
          | _ => (db, [], .error .typeError)

/-- `handle_set_user_ready`: when the new value equals the old one the user
write is skipped, but the team-ready aggregate is still recomputed from a
fresh member fetch and the usual single broadcast still goes out. -/
def handle_set_user_ready (db : DB) (uid : UUID) (msg : Message) : HResult :=
  match msg.data with
  | .vBool is_ready =>
    match db.get_user uid with
    | none => okErr db "internal error" msg.request_id
    | some user =>
      match user.group_id with
      | none => okErr db "user is not a group member" msg.request_id
      | some gid =>
        match db.get_group_teams gid with
        | .error e => (db, [], .error e)
        | .ok ts =>
          if ts.isEmpty then okErr db "group has no teams" msg.request_id
          else
            match ts.filter (fun t => uid ∈ t.members) with
            | [] => okErr db "internal error" msg.request_id
            | team :: more =>
              if !more.isEmpty then okErr db "internal error" msg.request_id
              else
                let db1 :=
                  if user.is_ready == is_ready then db
                  else db.add_or_update_user { user with is_ready := is_ready }
                match db1.get_team_members gid team.id with
                | none => (db1, [], .error .typeError)
                | some members =>
                  let team_is_ready := members.all (fun m => m.is_ready)
                  let sends := (team.members.filter (fun m => m ≠ uid)).map
                    (fun m => (m, (⟨.set_user_ready, .vReadyNotif uid is_ready team_is_ready, freshId⟩ : Message)))
                  (db1, sends, .ok ⟨.success, .vReadyResp uid team_is_ready, msg.request_id⟩)
  | _ => okErr db "data is invalid" msg.request_id

def handle_set_group_ready (db : DB) (uid : UUID) (msg : Message) : HResult :=
  match msg.data with
  | .vBool is_ready =>
    match db.get_user uid with
    | none => okErr db "internal error" msg.request_id
    | some user =>
      match user.group_id with
      | none => okErr db "not a group member" msg.request_id
      | some gid =>
        match db.get_group gid with
        | none => okErr db "internal error" msg.request_id
        | some group =>
          if uid ≠ group.admin_id then okErr db "operation is not permitted" msg.request_id
          else
            match db.get_group_teams group.id with
            | .error e => (db, [], .error e)
            | .ok ts =>
              if ts.length == 0 then okErr db "group has no teams" msg.request_id
              else
                let g2 := { group with is_ready := is_ready }
                (db.add_or_update_group g2, [], .ok ⟨.success, .vGroup g2, msg.request_id⟩)
  | _ => okErr db "data is invalid" msg.request_id

def COLLECTING_STAMPS_QUESTIONS_PER_PLAYER : Nat := 5

/-- The teammate sweep of `handle_collecting_stamps_start`: each teammate in
turn is checked and, when fresh, given a newly created persisted state and a
personal notification; an already-present state aborts the sweep with the
already-played error, keeping the states persisted for earlier teammates. -/
def startSweep (rid : UUID) : DB → List Sent → List UUID → DB × List Sent × Option Message
  | db, sends, [] => (db, sends, none)
  | db, sends, m :: rest =>
    let gs := (db.get_game_states m).getD []
    match dictGet gs GameType.collectingStamps with
    | some _ => (db, sends, some (mkErr "already played" rid))
    | none =>
      let ns : CollectingStampsState :=
        ⟨.pyList (db.get_random_questions COLLECTING_STAMPS_QUESTIONS_PER_PLAYER), 0⟩
      let db1 := db.add_or_update_game_states m (dictSet gs GameType.collectingStamps ns)
      startSweep rid db1
        (sends ++ [(m, (⟨.collecting_stamps_start, .vQuestions ns.questions, freshId⟩ : Message))]) rest

def handle_collecting_stamps_start (db : DB) (uid : UUID) (msg : Message) : HResult :=
  match db.get_user uid with
  | none => okErr db "internal error" msg.request_id
  | some user =>
    match user.group_id with
    | none => okErr db "not a group member" msg.request_id
    | some gid =>
      match db.get_group gid with
      | none => okErr db "not a group member" msg.request_id
      | some group =>
        if !group.is_ready then okErr db "group is not ready" msg.request_id
        else
          match db.get_group_teams gid with
          | .error e => (db, [], .error e)
          | .ok ts =>
            if ts.isEmpty then okErr db "group has no teams" msg.request_id
            else
              match ts.filter (fun t => uid ∈ t.members) with
              | [] => okErr db "internal error" msg.request_id
              | team :: more =>
                if !more.isEmpty then okErr db "internal error" msg.request_id
                else
                  match db.get_team_members gid team.id with
                  | none => (db, [], .error .typeError)
                  | some members =>
                    if !(members.all (fun m => m.is_ready)) then
                      okErr db "not all the members are ready" msg.request_id
                    else
                      match startSweep msg.request_id db [] (team.members.filter (fun m => m ≠ uid)) with
                      | (db1, sends, some e) => (db1, sends, .ok e)
                      | (db1, sends, none) =>
                        let gs := (db1.get_game_states uid).getD []
                        match dictGet gs GameType.collectingStamps with
                        | some _ => (db1, sends, .ok (mkErr "already played" msg.request_id))
                        | none =>
                          let ns : CollectingStampsState :=
                            ⟨.pyList (db1.get_random_questions COLLECTING_STAMPS_QUESTIONS_PER_PLAYER), 0⟩
                          let db2 := db1.add_or_update_game_states uid (dictSet gs GameType.collectingStamps ns)
                          (db2, sends, .ok ⟨.success, .vQuestions ns.questions, msg.request_id⟩)

/-- `handle_collecting_stamps_progress_update`: the counter is computed on
the deep-copied snapshot returned by get_game_states; the source never calls
add_or_update_game_states here, so the store is left untouched. On the
state shape actually created by the start handler (a question list), the
dict lookup inside update_progress raises AttributeError. -/
def handle_collecting_stamps_progress_update (db : DB) (uid : UUID) (msg : Message) : HResult :=
  match msg.data with
  | .vProgressReq d =>
    match d.answered_correctly with
    | none => okErr db "data is invalid" msg.request_id
    | some ac =>
      match d.questionText with
      | none => okErr db "collectingStampsQuestionText is missing" msg.request_id
      | some qt =>
        if qt == "" then okErr db "collectingStampsQuestionText is missing" msg.request_id
        else
          match db.get_user uid with
          | none => okErr db "internal error" msg.request_id
          | some user =>
            match db.get_game_states uid with
            | none => okErr db "no started games" msg.request_id
            | some gs =>
              if gs.isEmpty then okErr db "no started games" msg.request_id
              else
                match dictGet gs GameType.collectingStamps with
                | none => okErr db "collectingStamps is not started" msg.request_id
                | some stamps_state =>
                  match stamps_state.update_progress qt ac with
                  | .error e => (db, [], .error e)
                  | .ok (_, progress) =>
                    match user.group_id with
                    | none => (db, [], .error .valueError)
                    | some gid =>
                      match db.get_group_teams gid with
                      | .error e => (db, [], .error e)
                      | .ok ts =>
                        if ts.isEmpty then okErr db "group has no teams" msg.request_id
                        else
                          match ts.filter (fun t => uid ∈ t.members) with
                          | [] => okErr db "internal error" msg.request_id
                          | team :: more =>
                            if !more.isEmpty then okErr db "internal error" msg.request_id
                            else
                              let sends := (team.members.filter (fun m => m ≠ uid)).map
                                (fun m => (m, (⟨.collecting_stamps_progress, .vInt progress, msg.request_id⟩ : Message)))
                              (db, sends, .ok ⟨.success, .vInt progress, msg.request_id⟩)
  | _ => (db, [], .error .attributeError)

abbrev Handler := DB → UUID → Message → HResult

/-- The fixed dispatch table of `handle_message`. -/
def handlerFor : MsgTag → Option Handler
  | .get_user_info => some handle_get_user_info
  | .set_user_info => some handle_set_user_info
  | .set_user_ready => some handle_set_user_ready
  | .get_group_info => some handle_get_group_info
  | .set_group_info => some handle_set_group_info
  | .join_group => some handle_join_group
  | .leave_group => some handle_leave_group
  | .delete_group => some handle_delete_group
  | .set_group_ready => some handle_set_group_ready
  | .get_teams => some handle_get_teams
  | .set_teams => some handle_set_teams
  | .collecting_stamps_start => some handle_collecting_stamps_start
  | .collecting_stamps_progress => some handle_collecting_stamps_progress_update
  | _ => none

/-- Running a selected handler at the dispatcher boundary: an exception
escaping the handler is converted into the internal-error response carrying
the request correlation id; store writes and notifications already made
before the raise are kept. -/
def runHandler (db : DB) (uid : UUID) (msg : Message) (h : Handler) : DB × List Sent × Message :=
  match h db uid msg with
  | (db1, sends, .ok resp) => (db1, sends, resp)
  | (db1, sends, .error _) => (db1, sends, mkErr "internal error" msg.request_id)

/-- `MessageHandler.handle_message`: a type string outside the enum makes the
MessageType constructor raise ValueError, caught by the blanket except; enum
members missing from the table yield the unknown-message-type error; any
exception escaping the selected handler becomes an internal-error response.
Every response carries the request correlation id and nothing propagates. -/
def handle_message (db : DB) (uid : UUID) (msg : Message) : DB × List Sent × Message :=
  match msg.type with
  | .unknown _ => (db, [], mkErr "internal error" msg.request_id)
  | t =>
    match handlerFor t with
    | none => (db, [], mkErr "unknown message type" msg.request_id)
    | some h => runHandler db uid msg h

/-- Whether a handler result is a success response. -/
def respSuccess : Except PyExn Message → Bool
  | .ok m => m.type == .success
  | .error _ => false

/-- Whether a handler result is an error, either as an Error response or as
an escaped exception (which the dispatcher turns into an Error response). -/
def respIsError : Except PyExn Message → Bool
  | .ok m => m.type == .error
  | .error _ => true

/-- The collecting-stamps state stored for a user. -/
def stampsState (db : DB) (u : UUID) : Option CollectingStampsState :=
  match db.get_game_states u with
  | some gs => dictGet gs GameType.collectingStamps
  | none => none

/-- The admin-membership invariant over a group table. -/
def GroupsInv (groups : List (UUID × Group)) : Prop :=
  ∀ p ∈ groups, p.2.admin_id ∈ p.2.members

/-- For all groups G in the store, G.admin_id ∈ G.members. -/
def AdminInv (db : DB) : Prop := GroupsInv db.groups

/-- Pairwise disjointness of the member sets of a team list. -/
def teamsDisjoint (teams : List Team) : Prop :=
  ∀ t1 ∈ teams, ∀ t2 ∈ teams, t1 ≠ t2 → ∀ u ∈ t1.members, u ∉ t2.members

/-- The team member sets cover exactly the group member set. -/
def teamsCover (teams : List Team) (members : List UUID) : Prop :=
  (∀ u ∈ members, ∃ t ∈ teams, u ∈ t.members) ∧
  ∀ t ∈ teams, ∀ u ∈ t.members, u ∈ members

/-- The removal target a leave_group request resolves to (self on a falsy
payload, else the explicitly named user). -/
def leaveTarget (uid : UUID) (d : MsgData) : Option UUID :=
  if dataFalsy d then some uid
  else
    match d with
    | .vStr (.val t) => some t
    | _ => none

/-- The single team `handle_collecting_stamps_start` resolves for the caller
(the selection prefix of the handler: the user record, its group, the group
teams, and the unique team containing the caller). -/
def startTeamOf (db : DB) (uid : UUID) : Option Team :=
  match db.get_user uid with
  | none => none
  | some user =>
    match user.group_id with
    | none => none
    | some gid =>
      match db.get_group_teams gid with
      | .error _ => none
      | .ok ts =>
        match ts.filter (fun t => uid ∈ t.members) with
        | [team] => some team
        | _ => none

theorem dictGet_mem {K V : Type} [DecidableEq K] :
    ∀ {l : List (K × V)} {k : K} {v : V}, dictGet l k = some v → (k, v) ∈ l := by
  intro l
  induction l with
  | nil => intro k v h; cases h
  | cons p rest ih =>
    intro k v h
    obtain ⟨k0, v0⟩ := p
    by_cases hk : k0 = k
    · subst hk
      simp only [dictGet, if_pos rfl] at h
      cases h
      exact List.mem_cons_self _ _
    · simp only [dictGet, if_neg hk] at h
      exact List.mem_cons_of_mem _ (ih h)

theorem dictGet_dictSet_self {K V : Type} [DecidableEq K] :
    ∀ (l : List (K × V)) (k : K) (v : V), dictGet (dictSet l k v) k = some v := by
  intro l
  induction l with
  | nil => intro k v; simp [dictGet, dictSet]
  | cons p rest ih =>
    intro k v
    obtain ⟨k0, v0⟩ := p
    by_cases hk : k0 = k
    · subst hk; simp [dictGet, dictSet]
    · simp only [dictSet, if_neg hk, dictGet, if_neg hk]
      exact ih k v

theorem dictGet_dictSet_ne {K V : Type} [DecidableEq K] :
    ∀ (l : List (K × V)) (k k2 : K) (v : V), k2 ≠ k →
      dictGet (dictSet l k v) k2 = dictGet l k2 := by
  intro l
  induction l with
  | nil => intro k k2 v hne; simp [dictGet, dictSet, if_neg (Ne.symm hne)]
  | cons p rest ih =>
    intro k k2 v hne
    obtain ⟨k0, v0⟩ := p
    by_cases hk : k0 = k
    · subst hk
      simp only [dictSet, if_pos rfl, dictGet, if_neg (Ne.symm hne)]
    · simp only [dictSet, if_neg hk, dictGet]
      by_cases hk2 : k0 = k2
      · simp [if_pos hk2]
      · simp only [if_neg hk2]
        exact ih k k2 v hne

theorem GroupsInv_dictSet {l : List (UUID × Group)} {k : UUID} {g : Group}
    (h : GroupsInv l) (hg : g.admin_id ∈ g.members) : GroupsInv (dictSet l k g) := by
  induction l with
  | nil => intro p hp; simp only [dictSet, List.mem_singleton] at hp; subst hp; exact hg
  | cons p0 rest ih =>
    obtain ⟨k0, g0⟩ := p0
    have h0 : g0.admin_id ∈ g0.members := h (k0, g0) (List.mem_cons_self _ _)
    have hrest : GroupsInv rest := fun p hp => h p (List.mem_cons_of_mem _ hp)
    intro p hp
    simp only [dictSet] at hp
    by_cases hk : k0 = k
    · rw [if_pos hk] at hp
      rcases List.mem_cons.mp hp with h1 | h1
      · subst h1; exact hg
      · exact hrest p h1
    · rw [if_neg hk] at hp
      rcases List.mem_cons.mp hp with h1 | h1
      · subst h1; exact h0
      · exact ih hrest p h1

theorem GroupsInv_dictDel {l : List (UUID × Group)} {k : UUID}
    (h : GroupsInv l) : GroupsInv (dictDel l k) := by
  induction l with
  | nil => intro p hp; cases hp
  | cons p0 rest ih =>
    obtain ⟨k0, g0⟩ := p0
    have h0 : g0.admin_id ∈ g0.members := h (k0, g0) (List.mem_cons_self _ _)
    have hrest : GroupsInv rest := fun p hp => h p (List.mem_cons_of_mem _ hp)
    intro p hp
    simp only [dictDel] at hp
    by_cases hk : k0 = k
    · rw [if_pos hk] at hp; exact hrest p hp
    · rw [if_neg hk] at hp
      rcases List.mem_cons.mp hp with h1 | h1
      · subst h1; exact h0
      · exact ih hrest p h1

theorem AdminInv.of_get_group {db : DB} {gid : UUID} {g : Group}
    (h : AdminInv db) (hg : db.get_group gid = some g) : g.admin_id ∈ g.members :=
  h (gid, g) (dictGet_mem hg)

theorem mem_setAdd_of_mem {l : List UUID} {a : UUID} (u : UUID) (h : a ∈ l) :
    a ∈ setAdd l u := by
  unfold setAdd
  split
  · exact h
  · exact List.mem_append_left _ h

theorem mem_setAdd_self (l : List UUID) (u : UUID) : u ∈ setAdd l u := by
  unfold setAdd
  split
  · assumption
  · exact List.mem_append_right _ (List.mem_singleton.mpr rfl)

theorem AdminInv.of_groups_eq {db db2 : DB} (hg : db2.groups = db.groups)
    (h : AdminInv db) : AdminInv db2 := by
  unfold AdminInv GroupsInv at *
  rw [hg]
  exact h

theorem groups_foldl_add_team (db : DB) (ts : List Team) :
    (ts.foldl DB.add_or_update_team db).groups = db.groups := by
  induction ts generalizing db with
  | nil => rfl
  | cons t rest ih => exact (ih (db.add_or_update_team t)).trans rfl

theorem startSweep_groups (rid : UUID) (l : List UUID) :
    ∀ (db : DB) (sends : List Sent), (startSweep rid db sends l).1.groups = db.groups := by
  induction l with
  | nil => intro db sends; rfl
  | cons m rest ih =>
    intro db sends
    dsimp only [startSweep]
    split
    · rfl
    · exact (ih _ _).trans rfl

theorem deleteGroupLoop_groups (l : List UUID) :
    ∀ (db : DB) (sends : List Sent), (deleteGroupLoop db sends l).1.groups = db.groups := by
  induction l with
  | nil => intro db sends; rfl
  | cons m rest ih =>
    intro db sends
    dsimp only [deleteGroupLoop]
    split
    · exact (ih _ _).trans rfl
    · exact (ih _ _).trans rfl

theorem handle_get_user_info_db (db : DB) (uid : UUID) (msg : Message) :
    (handle_get_user_info db uid msg).1 = db := by
  simp only [handle_get_user_info, okErr]
  repeat' split
  all_goals rfl

theorem handle_get_group_info_db (db : DB) (uid : UUID) (msg : Message) :
    (handle_get_group_info db uid msg).1 = db := by
  simp only [handle_get_group_info, okErr]
  repeat' split
  all_goals rfl

theorem handle_get_teams_db (db : DB) (uid : UUID) (msg : Message) :
    (handle_get_teams db uid msg).1 = db := by
  simp only [handle_get_teams, okErr]
  repeat' split
  all_goals rfl

theorem handle_progress_db (db : DB) (uid : UUID) (msg : Message) :
    (handle_collecting_stamps_progress_update db uid msg).1 = db := by
  simp only [handle_collecting_stamps_progress_update, okErr]
  repeat' split
  all_goals rfl

theorem handle_set_user_info_groups (db : DB) (uid : UUID) (msg : Message) :
    (handle_set_user_info db uid msg).1.groups = db.groups := by
  simp only [handle_set_user_info, okErr]
  repeat' split
  all_goals rfl

theorem handle_set_user_ready_groups (db : DB) (uid : UUID) (msg : Message) :
    (handle_set_user_ready db uid msg).1.groups = db.groups := by
  simp only [handle_set_user_ready, okErr]
  repeat' split
  all_goals rfl

theorem handle_set_teams_groups (db : DB) (uid : UUID) (msg : Message) :
    (handle_set_teams db uid msg).1.groups = db.groups := by
  simp only [handle_set_teams, okErr]
  repeat' split
  all_goals first
    | rfl
    | exact groups_foldl_add_team db _

set_option linter.unusedTactic false in
theorem handle_start_groups (db : DB) (uid : UUID) (msg : Message) :
    (handle_collecting_stamps_start db uid msg).1.groups = db.groups := by
  simp only [handle_collecting_stamps_start, okErr]
  repeat' split
  all_goals try rfl
  all_goals
    first
      | (rename_i hsw
         exact (congrArg (fun r => r.1.groups) hsw).symm.trans (startSweep_groups _ _ _ _))
      | (rename_i hsw _x
         exact (congrArg (fun r => r.1.groups) hsw).symm.trans (startSweep_groups _ _ _ _))
      | (rename_i hsw _x _y
         exact (congrArg (fun r => r.1.groups) hsw).symm.trans (startSweep_groups _ _ _ _))
      | (rename_i hsw _x _y _z
         exact (congrArg (fun r => r.1.groups) hsw).symm.trans (startSweep_groups _ _ _ _))

theorem handle_set_group_info_admin (db : DB) (uid : UUID) (msg : Message)
    (h : AdminInv db) : AdminInv (handle_set_group_info db uid msg).1 := by
  simp only [handle_set_group_info, okErr]
  repeat' split
  all_goals try exact h
  -- admin updates the group name: members and admin are unchanged
  · refine GroupsInv_dictSet h ?_
    have hadm := AdminInv.of_get_group h (by assumption)
    exact hadm
  -- group creation: the creator is the admin and the sole member
  · exact GroupsInv_dictSet h (mem_setAdd_self [] uid)

theorem handle_join_group_admin (db : DB) (uid : UUID) (msg : Message)
    (h : AdminInv db) : AdminInv (handle_join_group db uid msg).1 := by
  simp only [handle_join_group, okErr]
  repeat' split
  all_goals try exact h
  exact GroupsInv_dictSet h (mem_setAdd_of_mem uid (AdminInv.of_get_group h (by assumption)))

theorem leaveGroupCore_admin (db : DB) (uid : UUID) (msg : Message) (gid : UUID)
    (id_to_remove : UUID) (target : Option User)
    (h : AdminInv db) : AdminInv (leaveGroupCore db uid msg gid id_to_remove target).1 := by
  simp only [leaveGroupCore, okErr]
  repeat' split
  all_goals try exact h
  all_goals
    (refine GroupsInv_dictSet h ?_
     have hadm := AdminInv.of_get_group h (by assumption)
     refine (List.mem_erase_of_ne ?_).mpr hadm
     intro he
     dsimp only at he
     simp_all)

theorem handle_leave_group_admin (db : DB) (uid : UUID) (msg : Message)
    (h : AdminInv db) : AdminInv (handle_leave_group db uid msg).1 := by
  simp only [handle_leave_group, okErr]
  repeat' split
  all_goals first
    | exact h
    | exact leaveGroupCore_admin _ _ _ _ _ _ h

theorem handle_delete_group_admin (db : DB) (uid : UUID) (msg : Message)
    (h : AdminInv db) : AdminInv (handle_delete_group db uid msg).1 := by
  simp only [handle_delete_group, okErr]
  repeat' split
  all_goals try exact h
  show GroupsInv (dictDel (deleteGroupLoop db [] _).1.groups _)
  rw [deleteGroupLoop_groups]
  exact GroupsInv_dictDel h

theorem handle_set_group_ready_admin (db : DB) (uid : UUID) (msg : Message)
    (h : AdminInv db) : AdminInv (handle_set_group_ready db uid msg).1 := by
  simp only [handle_set_group_ready, okErr]
  repeat' split
  all_goals try exact h
  refine GroupsInv_dictSet h ?_
  have hadm := AdminInv.of_get_group h (by assumption)
  exact hadm

theorem runHandler_fst (db : DB) (uid : UUID) (msg : Message) (h : Handler) :
    (runHandler db uid msg h).1 = (h db uid msg).1 := by
  unfold runHandler
  split <;> rename_i heq <;> rw [heq]

/-- Requests whose resolved removal target is the admin of the requesting
user's group always produce an error response and leave the store unchanged:
every path of the handler tail either fails before any write or is ruled out
by the admin check. -/
theorem leaveGroupCore_admin_target (db : DB) (uid : UUID) (msg : Message) (gid : UUID)
    (tgt : Option User) (g : Group) (hg : db.get_group gid = some g) :
    (leaveGroupCore db uid msg gid g.admin_id tgt).1 = db ∧
      respIsError (leaveGroupCore db uid msg gid g.admin_id tgt).2.2 = true := by
  simp only [leaveGroupCore, okErr]
  repeat' split
  all_goals first
    | exact ⟨rfl, rfl⟩
    | (exfalso; simp_all)

/-- C6: for every group in the store, the admin is one of the members after
every operation dispatched through handle_message, provided the invariant
held before; and a leave_group request whose resolved target is the admin of
the requesting user's group always fails with an error response and leaves
the store (in particular the group) unchanged. -/
theorem admin_in_members_invariant :
    (∀ (db : DB) (uid : UUID) (msg : Message),
        AdminInv db → AdminInv (handle_message db uid msg).1) ∧
    (∀ (db : DB) (uid : UUID) (msg : Message) (user : User) (gid : UUID) (g : Group),
        db.get_user uid = some user → user.group_id = some gid →
        db.get_group gid = some g → leaveTarget uid msg.data = some g.admin_id →
        (handle_leave_group db uid msg).1 = db ∧
          respIsError (handle_leave_group db uid msg).2.2 = true) := by
  constructor
  · intro db uid msg h
    obtain ⟨t, d, rid⟩ := msg
    cases t <;>
      simp only [handle_message, handlerFor] <;>
      first
        | exact h
        | (rw [runHandler_fst]
           first
             | rw [handle_get_user_info_db]; exact h
             | rw [handle_get_group_info_db]; exact h
             | rw [handle_get_teams_db]; exact h
             | rw [handle_progress_db]; exact h
             | exact AdminInv.of_groups_eq (handle_set_user_info_groups _ _ _) h
             | exact AdminInv.of_groups_eq (handle_set_user_ready_groups _ _ _) h
             | exact AdminInv.of_groups_eq (handle_set_teams_groups _ _ _) h
             | exact AdminInv.of_groups_eq (handle_start_groups _ _ _) h
             | exact handle_set_group_info_admin _ _ _ h
             | exact handle_join_group_admin _ _ _ h
             | exact handle_leave_group_admin _ _ _ h
             | exact handle_delete_group_admin _ _ _ h
             | exact handle_set_group_ready_admin _ _ _ h)
  · intro db uid msg user gid g hu hgid hg htarget
    by_cases hfd : dataFalsy msg.data
    · have huidadm : uid = g.admin_id := by
        unfold leaveTarget at htarget
        rw [if_pos hfd] at htarget
        exact Option.some.inj htarget
      simp only [handle_leave_group, hu, hgid, if_pos hfd]
      rw [huidadm]
      exact leaveGroupCore_admin_target db g.admin_id msg gid (some user) g hg
    · obtain ⟨t, hmd, ht⟩ : ∃ t, msg.data = .vStr (.val t) ∧ t = g.admin_id := by
        unfold leaveTarget at htarget
        rw [if_neg hfd] at htarget
        split at htarget
        · exact ⟨_, by assumption, Option.some.inj htarget⟩
        · cases htarget
      simp only [handle_leave_group, hu, hgid, if_neg hfd, hmd]
      rw [ht]
      exact leaveGroupCore_admin_target db uid msg gid (db.get_user g.admin_id) g hg

/-- C7: a set_teams request that does not succeed leaves the store, and in
particular the stored teams, exactly as they were: every failure path of the
handler returns before the persistence loop runs. -/
theorem set_teams_all_or_nothing (db : DB) (uid : UUID) (msg : Message)
    (h : respSuccess (handle_set_teams db uid msg).2.2 = false) :
    (handle_set_teams db uid msg).1 = db := by
  revert h
  simp only [handle_set_teams, okErr]
  repeat' split
  all_goals intro h
  all_goals first
    | rfl
    | simp [respSuccess] at h

theorem stampsState_eq_getD (db : DB) (m : UUID) :
    stampsState db m = dictGet ((db.get_game_states m).getD []) GameType.collectingStamps := by
  unfold stampsState
  cases db.get_game_states m <;> rfl

theorem get_game_states_add_self (db : DB) (m : UUID) (gs : GameStates) :
    (db.add_or_update_game_states m gs).get_game_states m = some gs := by
  unfold DB.add_or_update_game_states DB.get_game_states
  exact dictGet_dictSet_self _ _ _

theorem get_game_states_add_ne (db : DB) (m u : UUID) (gs : GameStates) (hne : u ≠ m) :
    (db.add_or_update_game_states m gs).get_game_states u = db.get_game_states u := by
  unfold DB.add_or_update_game_states DB.get_game_states
  exact dictGet_dictSet_ne _ _ _ _ hne

theorem stampsState_add_ne (db : DB) (m u : UUID) (gs : GameStates) (hne : u ≠ m) :
    stampsState (db.add_or_update_game_states m gs) u = stampsState db u := by
  unfold stampsState
  rw [get_game_states_add_ne db m u gs hne]

/-- Every collecting-stamps state present before the teammate sweep is still
present, unchanged, afterwards: a state is only ever written for a member
whose lookup just returned nothing. -/
theorem startSweep_preserves (rid : UUID) (l : List UUID) :
    ∀ (db : DB) (sends : List Sent) (u : UUID) (s : CollectingStampsState),
      stampsState db u = some s → stampsState (startSweep rid db sends l).1 u = some s := by
  induction l with
  | nil => intro db sends u s hs; exact hs
  | cons m rest ih =>
    intro db sends u s hs
    dsimp only [startSweep]
    split
    · exact hs
    · rename_i hnone
      apply ih
      by_cases hum : u = m
      · exfalso
        subst hum
        rw [stampsState_eq_getD] at hs
        rw [hs] at hnone
        cases hnone
      · rw [stampsState_add_ne _ _ _ _ hum]
        exact hs

/-- A sweep that ran to completion found no member with a pre-existing
collecting-stamps state. -/
theorem startSweep_complete_fresh (rid : UUID) (l : List UUID) :
    ∀ (db db1 : DB) (sends sends1 : List Sent),
      startSweep rid db sends l = (db1, sends1, none) →
      ∀ m ∈ l, stampsState db m = none := by
  induction l with
  | nil => intro db db1 sends sends1 _ m hm; cases hm
  | cons m0 rest ih =>
    intro db db1 sends sends1 hrun m hm
    dsimp only [startSweep] at hrun
    revert hrun
    split
    · intro hrun; simp at hrun
    · rename_i hnone0
      intro hrun
      by_cases hmm : m = m0
      · subst hmm
        rw [stampsState_eq_getD]
        exact hnone0
      · rcases List.mem_cons.mp hm with hfst | hmrest
        · exact absurd hfst hmm
        · have hlater := ih _ db1 _ sends1 hrun m hmrest
          rw [stampsState_add_ne _ _ _ _ hmm] at hlater
          exact hlater

/-- The sweep does not change the stored game states of anyone outside the
swept list. -/
theorem startSweep_not_in (rid : UUID) (l : List UUID) :
    ∀ (db : DB) (sends : List Sent) (u : UUID), u ∉ l →
      stampsState (startSweep rid db sends l).1 u = stampsState db u := by
  induction l with
  | nil => intro db sends u _; rfl
  | cons m rest ih =>
    intro db sends u hu
    have hum : u ≠ m := fun he => hu (he ▸ List.mem_cons_self m rest)
    have hurest : u ∉ rest := fun hr => hu (List.mem_cons_of_mem _ hr)
    dsimp only [startSweep]
    split
    · rfl
    · rw [ih _ _ u hurest, stampsState_add_ne _ _ _ _ hum]

theorem runHandler_of_error (db : DB) (uid : UUID) (msg : Message) (h : Handler) (e : PyExn)
    (he : (h db uid msg).2.2 = .error e) :
    runHandler db uid msg h =
      ((h db uid msg).1, (h db uid msg).2.1, mkErr "internal error" msg.request_id) := by
  unfold runHandler
  split
  · rename_i db1 sends resp heq
    rw [heq] at he
    simp at he
  · rename_i db1 sends e2 heq
    rw [heq]

/-- C9: the dispatcher returns a correlated Error response for every envelope
whose tag selects no handler, and converts every exception escaping the
selected handler into a correlated internal-error response; handle_message is
a total function into responses, so handler failures never propagate. -/
theorem dispatcher_isolates_failures :
    (∀ (db : DB) (uid : UUID) (msg : Message), handlerFor msg.type = none →
        (handle_message db uid msg).2.2.type = .error ∧
        (handle_message db uid msg).2.2.request_id = msg.request_id) ∧
    (∀ (db : DB) (uid : UUID) (msg : Message) (h : Handler) (e : PyExn),
        handlerFor msg.type = some h → (h db uid msg).2.2 = .error e →
        (handle_message db uid msg).2.2 = mkErr "internal error" msg.request_id) := by
  constructor
  · intro db uid msg hnone
    obtain ⟨t, d, rid⟩ := msg
    cases t <;> simp_all [handle_message, handlerFor, mkErr]
  · intro db uid msg h e hsome he
    obtain ⟨t, d, rid⟩ := msg
    cases t <;> simp only [handlerFor] at hsome <;> try cases hsome
    all_goals
      (simp only [handle_message, handlerFor]
       rw [runHandler_of_error _ _ _ _ e he])

/-- No existing collecting-stamps state is ever overwritten by a start
request, whatever its outcome: both the teammate sweep and the final caller
step create a state only after looking one up and finding none. -/
theorem handle_start_preserves (db : DB) (uid : UUID) (msg : Message)
    (u : UUID) (s : CollectingStampsState) (hs : stampsState db u = some s) :
    stampsState (handle_collecting_stamps_start db uid msg).1 u = some s := by
  simp only [handle_collecting_stamps_start, okErr]
  repeat' split
  all_goals try exact hs
  -- the sweep aborted with the already-played error
  · rename_i hsw
    exact (congrArg (fun r => stampsState r.1 u) hsw).symm.trans
      (startSweep_preserves _ _ _ _ _ _ hs)
  -- the caller had already played: no further write
  · rename_i hsw _x _v _hget
    exact (congrArg (fun r => stampsState r.1 u) hsw).symm.trans
      (startSweep_preserves _ _ _ _ _ _ hs)
  -- full success: the caller state is created only when the lookup was empty
  · rename_i hsw _x hget
    have hpres := (congrArg (fun r => stampsState r.1 u) hsw).symm.trans
      (startSweep_preserves _ _ _ _ _ _ hs)
    by_cases huu : u = uid
    · exfalso
      subst huu
      rw [stampsState_eq_getD] at hpres
      rw [hget] at hpres
      cases hpres
    · rw [stampsState_add_ne _ _ _ _ huu]
      exact hpres

/-- The message aborting a sweep is always the already-played error. -/
theorem startSweep_abort_is_error (rid : UUID) (l : List UUID) :
    ∀ (db : DB) (sends : List Sent) (db1 : DB) (sends1 : List Sent) (e : Message),
      startSweep rid db sends l = (db1, sends1, some e) → e = mkErr "already played" rid := by
  induction l with
  | nil => intro db sends db1 sends1 e h; simp [startSweep] at h
  | cons m rest ih =>
    intro db sends db1 sends1 e h
    dsimp only [startSweep] at h
    revert h
    split
    · intro h
      exact (Option.some.inj (congrArg (fun r => r.2.2) h)).symm
    · intro h
      exact ih _ _ _ _ _ h

/-- A start request can only succeed when no member of the caller's resolved
team — the caller included — already had a collecting-stamps state. -/
theorem handle_start_success_fresh (db : DB) (uid : UUID) (msg : Message) (team : Team)
    (ht : startTeamOf db uid = some team)
    (hs : respSuccess (handle_collecting_stamps_start db uid msg).2.2 = true) :
    ∀ m ∈ team.members, stampsState db m = none := by
  revert hs
  simp only [handle_collecting_stamps_start, okErr]
  repeat' split
  all_goals intro hs
  all_goals try (simp [respSuccess, mkErr] at hs)
  -- the sweep-abort branch answers with the already-played error, not success
  · rename_i x1 db1 sends e hsw
    have he := startSweep_abort_is_error msg.request_id _ db [] db1 sends e hsw
    rw [he] at hs
    simp [mkErr] at hs
  rename_i x7 user hu x6 gid hgid x5 grp hgrp hready x4 teamsv hteams hets x3 team0
    more hfil hmore x2 members hmem hallr x1 db1 sends hsw x0 hget
  have hmore0 : more = ([] : List Team) := by simpa using hmore
  rw [hmore0] at hfil
  have hteq : team0 = team := by
    simp only [startTeamOf, hu, hgid, hteams, hfil] at ht
    simpa using ht
  subst hteq
  intro m hm
  by_cases hmu : m = uid
  · subst hmu
    have hnotin : m ∉ List.filter (fun x => decide (x ≠ m)) team0.members := by simp
    have h1 := startSweep_not_in msg.request_id _ db [] m hnotin
    have h2 := congrArg (fun r => stampsState r.1 m) hsw
    have h3 : stampsState db1 m = none := by
      rw [stampsState_eq_getD]
      exact hget
    exact h1.symm.trans (h2.trans h3)
  · have hmfil : m ∈ List.filter (fun x => decide (x ≠ uid)) team0.members := by
      simp only [List.mem_filter, decide_eq_true_eq]
      exact ⟨hm, hmu⟩
    exact startSweep_complete_fresh msg.request_id _ db db1 [] sends hsw m hmfil

/-- C5 (amended): a collecting-stamps start request never overwrites an
existing collecting-stamps state, and it can only succeed when neither the
caller nor any member of the caller's single team already had one — so a
pre-existing state anywhere on the team makes the request fail; but the
sweep is not all-or-nothing: states persisted for teammates processed before
the failure are kept (see the concrete counterexample). -/
theorem collecting_stamps_start_guard :
    (∀ (db : DB) (uid : UUID) (msg : Message) (u : UUID) (s : CollectingStampsState),
        stampsState db u = some s →
        stampsState (handle_collecting_stamps_start db uid msg).1 u = some s) ∧
    (∀ (db : DB) (uid : UUID) (msg : Message) (team : Team),
        startTeamOf db uid = some team →
        respSuccess (handle_collecting_stamps_start db uid msg).2.2 = true →
        ∀ m ∈ team.members, stampsState db m = none) :=
  ⟨handle_start_preserves, handle_start_success_fresh⟩

/-- C8: when the requested readiness value equals the stored one, the store
is left untouched (so the team-ready aggregation cannot change), the request
still succeeds with the freshly recomputed team-ready aggregate, and the only
notifications are the usual single broadcast to the other team members — one
message per teammate, none to anyone else and none duplicated. -/
theorem set_user_ready_noop (db : DB) (uid : UUID) (msg : Message) (user : User)
    (gid : UUID) (team : Team) (ts : List Team) (mlist : List User)
    (hd : msg.data = .vBool user.is_ready)
    (hu : db.get_user uid = some user)
    (hgid : user.group_id = some gid)
    (hts : db.get_group_teams gid = .ok ts)
    (hne : ts.isEmpty = false)
    (hfil : ts.filter (fun t => uid ∈ t.members) = [team])
    (hmem : db.get_team_members gid team.id = some mlist)
    (hnd : team.members.Nodup) :
    handle_set_user_ready db uid msg =
      (db,
       (team.members.filter (fun m => m ≠ uid)).map
         (fun m => (m, (⟨.set_user_ready,
            .vReadyNotif uid user.is_ready (mlist.all (fun x => x.is_ready)), freshId⟩ : Message))),
       .ok ⟨.success, .vReadyResp uid (mlist.all (fun x => x.is_ready)), msg.request_id⟩) ∧
    (((team.members.filter (fun m => m ≠ uid)).map
        (fun m => (m, (⟨.set_user_ready,
           .vReadyNotif uid user.is_ready (mlist.all (fun x => x.is_ready)), freshId⟩ : Message)))).map
        Prod.fst).Nodup := by
  constructor
  · simp only [handle_set_user_ready, hd, hu, hgid, hts, hne, hfil, hmem,
      Bool.not_false, List.isEmpty_nil, beq_self_eq_true, if_true]
    simp
  · rw [List.map_map]
    have hcomp : (Prod.fst ∘ fun m => (m, (⟨.set_user_ready,
        .vReadyNotif uid user.is_ready (mlist.all (fun x => x.is_ready)), freshId⟩ : Message))) =
        fun (m : UUID) => m := rfl
    rw [hcomp, List.map_id']
    exact hnd.filter _

/-- C10: a successful set_user_info for an existing user rebuilds the stored
record with the submitted name and image, the same id and group id, and the
readiness flag reset to the dataclass default False (whatever it was before),
while the group table — hence every group member set — is untouched. -/
theorem set_user_info_resets_ready (db : DB) (uid : UUID) (msg : Message)
    (old : User) (nm img : String)
    (hu : db.get_user uid = some old)
    (hd : msg.data = .vUserInfo ⟨some nm, some img⟩) :
    (handle_set_user_info db uid msg).1.users =
        dictSet db.users uid ⟨uid, some nm, some img, old.group_id, false⟩ ∧
    (handle_set_user_info db uid msg).1.groups = db.groups ∧
    (handle_set_user_info db uid msg).2.2 =
        .ok ⟨.success, .vUserId uid, msg.request_id⟩ := by
  refine ⟨?_, ?_, ?_⟩ <;>
    simp only [handle_set_user_info, hd, hu, DB.add_or_update_user]

/-- A two-member group whose admin is user 1, with no teams yet. -/
def dbA : DB :=
  { users := [(1, ⟨1, some "A", none, some 10, false⟩), (2, ⟨2, some "B", none, some 10, false⟩)]
    groups := [(10, ⟨10, 1, "G", [1, 2], false⟩)] }

def setTeamsMsg1 : Message := ⟨.set_teams, .vRawTeams [⟨.val 1, some [.val 1, .val 2]⟩], 11⟩

def setTeamsMsg2 : Message := ⟨.set_teams, .vRawTeams [⟨.val 2, some [.val 1, .val 2]⟩], 12⟩

def dbAfterFirstSet : DB := (handle_set_teams dbA 1 setTeamsMsg1).1

def dbAfterSecondSet : DB := (handle_set_teams dbAfterFirstSet 1 setTeamsMsg2).1

/-- C1: after two successful set_teams requests whose team ids differ, the
stored teams of the group are the old team and the new one, sharing all their
members — the stale team from the first request is never deleted, so the
stored teams are not pairwise disjoint and do not form a partition. -/
theorem set_teams_leaves_stale_overlapping_teams :
    respSuccess (handle_set_teams dbA 1 setTeamsMsg1).2.2 = true ∧
    respSuccess (handle_set_teams dbAfterFirstSet 1 setTeamsMsg2).2.2 = true ∧
    dbAfterSecondSet.get_group_teams 10 = .ok [⟨1, 10, [1, 2]⟩, ⟨2, 10, [1, 2]⟩] ∧
    ¬ teamsDisjoint [(⟨1, 10, [1, 2]⟩ : Team), ⟨2, 10, [1, 2]⟩] := by
  refine ⟨rfl, rfl, rfl, ?_⟩
  intro h
  exact h ⟨1, 10, [1, 2]⟩ (by decide) ⟨2, 10, [1, 2]⟩ (by decide) (by decide) 1 (by decide)
    (by decide)

/-- A two-member group with one team covering both members. -/
def dbB : DB :=
  { users := [(1, ⟨1, some "A", none, some 10, false⟩), (2, ⟨2, some "B", none, some 10, false⟩)]
    groups := [(10, ⟨10, 1, "G", [1, 2], false⟩)]
    teams := [((10, 1), ⟨1, 10, [1, 2]⟩)] }

def deleteMsg : Message := ⟨.delete_group, .vNone, 5⟩

/-- C2: the admin deletes the group successfully, the group record is gone,
but the team keyed by that group survives in the store: delete_group never
cascades to the teams (the source even carries a TODO to do so). -/
theorem delete_group_does_not_cascade_teams :
    respSuccess (handle_delete_group dbB 1 deleteMsg).2.2 = true ∧
    (handle_delete_group dbB 1 deleteMsg).1.get_group 10 = none ∧
    (handle_delete_group dbB 1 deleteMsg).1.teams = [((10, 1), ⟨1, 10, [1, 2]⟩)] :=
  ⟨rfl, rfl, rfl⟩

/-- A user with a started collecting-stamps state exactly as the start
handler persists it: the questions field holds the raw question list. -/
def dbP : DB :=
  { users := [(1, ⟨1, some "A", none, some 10, false⟩)]
    groups := [(10, ⟨10, 1, "G", [1], false⟩)]
    game_states := [(1, [(.collectingStamps, ⟨.pyList [⟨"Q1", some "a", none⟩], 0⟩)])] }

def progressMsg : Message := ⟨.collecting_stamps_progress, .vProgressReq ⟨some true, some "Q1"⟩, 7⟩

/-- C3: a progress request from a user with a started game reaches
update_progress, which calls the dict method get on the stored question list
and raises AttributeError; the dispatcher converts it into the internal-error
response, the store is unchanged (in particular no counter is persisted), no
teammate is notified, and no counter is returned. -/
theorem progress_update_raises_and_persists_nothing :
    handle_message dbP 1 progressMsg = (dbP, [], mkErr "internal error" 7) := rfl

def stQ1 : CollectingStampsState := ⟨.pyDict [(⟨"Q1", none, none⟩, false)], 1⟩

/-- C4: on a dict-shaped state (the type the dataclass declares), submitting
the same question text twice with the correctness flag False yields counter 1
and then counter 2: a question recorded with a falsy answer is re-recorded
and re-counted, so duplicate submissions inflate the progress counter. -/
theorem duplicate_progress_submission_inflates_counter :
    CollectingStampsState.update_progress ⟨.pyDict [], 0⟩ "Q1" false = .ok (stQ1, 1) ∧
    CollectingStampsState.update_progress stQ1 "Q1" false =
      .ok (⟨.pyDict [(⟨"Q1", none, none⟩, false)], 2⟩, 2) :=
  ⟨rfl, rfl⟩

/-- A ready three-member team in a ready group; user 3 already has a
collecting-stamps state, users 1 and 2 do not. -/
def dbS : DB :=
  { users := [(1, ⟨1, some "A", none, some 10, true⟩), (2, ⟨2, some "B", none, some 10, true⟩),
              (3, ⟨3, some "C", none, some 10, true⟩)]
    groups := [(10, ⟨10, 1, "G", [1, 2, 3], true⟩)]
    teams := [((10, 1), ⟨1, 10, [1, 2, 3]⟩)]
    game_states := [(3, [(.collectingStamps, ⟨.pyList [], 0⟩)])] }

def startMsg : Message := ⟨.collecting_stamps_start, .vNone, 99⟩

/-- C5 counterexample: user 1 starts the game; the sweep creates and persists
a state for teammate 2, then finds teammate 3 already played and aborts with
the already-played error — but teammate 2 keeps the newly persisted state, so
the failing request is not all-or-nothing. -/
theorem collecting_stamps_start_not_atomic :
    (handle_collecting_stamps_start dbS 1 startMsg).2.2 = .ok (mkErr "already played" 99) ∧
    stampsState dbS 2 = none ∧
    stampsState (handle_collecting_stamps_start dbS 1 startMsg).1 2 = some ⟨.pyList [], 0⟩ :=
  ⟨rfl, rfl, rfl⟩

/-- The same scenario with no pre-existing state anywhere. -/
def dbS2 : DB :=
  { users := [(1, ⟨1, some "A", none, some 10, true⟩), (2, ⟨2, some "B", none, some 10, true⟩),
              (3, ⟨3, some "C", none, some 10, true⟩)]
    groups := [(10, ⟨10, 1, "G", [1, 2, 3], true⟩)]
    teams := [((10, 1), ⟨1, 10, [1, 2, 3]⟩)] }

/-- A lone stored collecting-stamps state, untouched by a start request. -/
def dbSW : DB :=
  { game_states := [(7, [(.collectingStamps, ⟨.pyList [], 3⟩)])] }

theorem collecting_stamps_start_guard_witness :
    stampsState (handle_collecting_stamps_start dbSW 1 startMsg).1 7 =
      some ⟨.pyList [], 3⟩ ∧
    ∀ m ∈ (⟨1, 10, [1, 2, 3]⟩ : Team).members, stampsState dbS2 m = none :=
  ⟨collecting_stamps_start_guard.1 dbSW 1 startMsg 7 ⟨.pyList [], 3⟩ rfl,
   collecting_stamps_start_guard.2 dbS2 1 startMsg ⟨1, 10, [1, 2, 3]⟩ rfl rfl⟩

theorem admin_in_members_invariant_witness :
    AdminInv (handle_message dbB 1 deleteMsg).1 ∧
    ((handle_leave_group dbB 2 ⟨.leave_group, .vStr (.val 1), 21⟩).1 = dbB ∧
      respIsError (handle_leave_group dbB 2 ⟨.leave_group, .vStr (.val 1), 21⟩).2.2 = true) :=
  ⟨admin_in_members_invariant.1 dbB 1 deleteMsg (by unfold AdminInv GroupsInv dbB; decide),
   admin_in_members_invariant.2 dbB 2 ⟨.leave_group, .vStr (.val 1), 21⟩
     ⟨2, some "B", none, some 10, false⟩ 10 ⟨10, 1, "G", [1, 2], false⟩ rfl rfl rfl rfl⟩

def badTeamsMsg : Message := ⟨.set_teams, .vRawTeams [], 13⟩

theorem set_teams_all_or_nothing_witness :
    respSuccess (handle_set_teams dbA 1 badTeamsMsg).2.2 = false ∧
    (handle_set_teams dbA 1 badTeamsMsg).1 = dbA :=
  ⟨rfl, set_teams_all_or_nothing dbA 1 badTeamsMsg rfl⟩

/-- A two-member team whose members are both ready; user 1 asks to set its
readiness to the value it already has. -/
def dbR : DB :=
  { users := [(1, ⟨1, some "A", none, some 10, true⟩), (2, ⟨2, some "B", none, some 10, true⟩)]
    groups := [(10, ⟨10, 1, "G", [1, 2], false⟩)]
    teams := [((10, 1), ⟨1, 10, [1, 2]⟩)] }

def readyMsg : Message := ⟨.set_user_ready, .vBool true, 77⟩

theorem set_user_ready_noop_witness :
    handle_set_user_ready dbR 1 readyMsg =
      (dbR,
       [(2, (⟨.set_user_ready, .vReadyNotif 1 true true, freshId⟩ : Message))],
       .ok ⟨.success, .vReadyResp 1 true, 77⟩) ∧
    (([(2, (⟨.set_user_ready, .vReadyNotif 1 true true, freshId⟩ : Message))]).map
        Prod.fst).Nodup := by
  have h := set_user_ready_noop dbR 1 readyMsg ⟨1, some "A", none, some 10, true⟩ 10
    ⟨1, 10, [1, 2]⟩ [⟨1, 10, [1, 2]⟩]
    [⟨1, some "A", none, some 10, true⟩, ⟨2, some "B", none, some 10, true⟩]
    rfl rfl rfl rfl rfl rfl rfl (by decide)
  exact ⟨h.1, h.2⟩

/-- A user whose stored group id names a group that does not exist, which
makes get_group_teams raise ValueError inside handle_set_user_ready. -/
def dbE : DB :=
  { users := [(1, ⟨1, some "A", none, some 99, false⟩)] }

def unkMsg : Message := ⟨.connect, .vNone, 3⟩

def readyMsg2 : Message := ⟨.set_user_ready, .vBool true, 4⟩

theorem dispatcher_isolates_failures_witness :
    ((handle_message dbB 1 unkMsg).2.2.type = .error ∧
      (handle_message dbB 1 unkMsg).2.2.request_id = 3) ∧
    (handle_message dbE 1 readyMsg2).2.2 = mkErr "internal error" 4 :=
  ⟨dispatcher_isolates_failures.1 dbB 1 unkMsg rfl,
   dispatcher_isolates_failures.2 dbE 1 readyMsg2 handle_set_user_ready .valueError rfl rfl⟩

/-- An existing user whose readiness flag is currently True. -/
def dbU : DB :=
  { users := [(1, ⟨1, some "old", none, some 10, true⟩), (2, ⟨2, some "B", none, some 10, false⟩)]
    groups := [(10, ⟨10, 1, "G", [1, 2], false⟩)] }

def infoMsg : Message := ⟨.set_user_info, .vUserInfo ⟨some "new", some "img"⟩, 8⟩

theorem set_user_info_resets_ready_witness :
    (handle_set_user_info dbU 1 infoMsg).1.users =
        dictSet dbU.users 1 ⟨1, some "new", some "img", some 10, false⟩ ∧
    (handle_set_user_info dbU 1 infoMsg).1.groups = dbU.groups ∧
    (handle_set_user_info dbU 1 infoMsg).2.2 = .ok ⟨.success, .vUserId 1, 8⟩ :=
  set_user_info_resets_ready dbU 1 infoMsg ⟨1, some "old", none, some 10, true⟩ "new" "img"
    rfl rfl

end TrainHunt
